import Mathlib

/-!
Verification of the session-dataset generator (`dataset.py`).

The script builds 500 user ids `user001 … user500`, and for each one draws a
random minute offset in `[0, 1440]` (`random.randint(0, 1440)`), subtracts it
from the current wall-clock time, formats that timestamp as `%H:%M`, draws a
status uniformly from `["active", "inactive", "expired"]`, and serializes the
record as a line `session:<userId> → <json object>`; the lines are joined with
`"\n"` and written to `user_sessions.txt`.

The embedding models wall-clock time at minute granularity (a `Nat` counting
minutes since the calendar epoch: `strftime("%H:%M")` only reads the hour and
minute, and only whole minutes are ever subtracted), and models the random
draws as streams indexed by the loop iteration: the offset drawn at iteration
`j` is `offs j : Fin 1441` (the inclusive range of `randint(0, 1440)`), the
status index is `chs j : Fin 3`, and the wall clock observed at iteration `j`
is `now j` (each loop iteration calls `datetime.now()` afresh).
-/

set_option maxRecDepth 40000

namespace Dataset

/-- Embedding of the Python format specification `{i:03d}` (line 7): the
decimal representation of `i`, left-padded with `'0'` to a minimum width
of 3. -/
def format03d (i : Nat) : String :=
  let s := toString i
  if s.length < 3 then String.mk (List.replicate (3 - s.length) '0' ++ s.data) else s

/-- Embedding of `strftime`'s zero-padded two-digit fields `%H` and `%M`
(line 14): the decimal representation of `n`, left-padded with `'0'` to a
minimum width of 2. -/
def format2 (n : Nat) : String :=
  let s := toString n
  if s.length < 2 then String.mk (List.replicate (2 - s.length) '0' ++ s.data) else s

/-- `user_ids = [f"user{i:03d}" for i in range(1, 501)]` (line 7). -/
def user_ids : List String :=
  (List.range' 1 500).map (fun i => "user" ++ format03d i)

/-- The status vocabulary `["active", "inactive", "expired"]` (line 11). -/
def statuses : List String := ["active", "inactive", "expired"]

/-- `datetime.datetime.now() - datetime.timedelta(minutes=k)` (line 10) at
minute granularity: `now` is the wall clock in minutes, `k` the drawn offset.
`random.randint(0, 1440)` is inclusive on both ends, hence `k : Fin 1441`. -/
def loginStamp (now : Nat) (k : Fin 1441) : Nat := now - k.val

/-- `login_time.strftime("%H:%M")` (line 14) on a timestamp `t` in minutes:
hour and minute of `t`, each zero-padded to two digits, joined by `':'`. -/
def strftimeHM (t : Nat) : String :=
  format2 (t / 60 % 24) ++ ":" ++ format2 (t % 60)

/-- The `session_data` dictionary of lines 12-16: three string fields, in
insertion order `userId`, `loginTime`, `status`. -/
structure SessionData where
  userId : String
  loginTime : String
  status : String

/-- A `SessionData` with empty fields, used only as a `getD` default. -/
def emptySession : SessionData := { userId := "", loginTime := "", status := "" }

/-- One loop iteration's `session_data` (lines 10-16): the loop's `user_id`,
the formatted offset timestamp, and the status drawn by
`random.choice(["active", "inactive", "expired"])` (index `c`). -/
def mkSessionData (user_id : String) (now : Nat) (k : Fin 1441) (c : Fin 3) : SessionData :=
  { userId := user_id,
    loginTime := strftimeHM (loginStamp now k),
    status := statuses.getD c.val "" }

/-- `json.dumps(session_data)` (line 17): the three fields in insertion order,
with `json.dumps`'s default separators `", "` and `": "`.  None of the values
ever needs JSON escaping (they are ASCII letters, digits and `':'`). -/
def jsonDumps (sd : SessionData) : String :=
  "\x7b\"userId\": \"" ++ sd.userId ++ "\", \"loginTime\": \"" ++ sd.loginTime ++
    "\", \"status\": \"" ++ sd.status ++ "\"\x7d"

/-- `f"session:{user_id} → {json.dumps(session_data)}"` (line 17). -/
def sessionLine (user_id : String) (sd : SessionData) : String :=
  "session:" ++ user_id ++ " → " ++ jsonDumps sd

/-- The `session_data` records built by the loop of lines 9-17, in loop
order: iteration `j` processes `user_ids[j]` and the `j`-th random draws. -/
def records (now : Nat → Nat) (offs : Nat → Fin 1441) (chs : Nat → Fin 3) :
    List SessionData :=
  (List.range user_ids.length).map
    (fun j => mkSessionData (user_ids.getD j "") (now j) (offs j) (chs j))

/-- The `sessions` list of formatted lines (lines 6, 9-17): iteration `j`
appends `sessionLine` of `user_ids[j]` and that iteration's `session_data`. -/
def sessions (now : Nat → Nat) (offs : Nat → Fin 1441) (chs : Nat → Fin 3) :
    List String :=
  (List.range user_ids.length).map
    (fun j => sessionLine (user_ids.getD j "")
      (mkSessionData (user_ids.getD j "") (now j) (offs j) (chs j)))

/-- Embedding of Python's `"\n".join(lst)` (line 21): the elements
interleaved with single newlines, empty for an empty list. -/
def joinNl : List String → String
  | [] => ""
  | [s] => s
  | s :: rest => s ++ "\n" ++ joinNl rest

/-- The full content written to `user_sessions.txt` (lines 20-21):
`"\n".join(sessions)`. -/
def fileContent (now : Nat → Nat) (offs : Nat → Fin 1441) (chs : Nat → Fin 3) :
    String :=
  joinNl (sessions now offs chs)

/-- Claim-side: split a character sequence on the newline character; the
number of resulting chunks is the line count of the text. -/
def splitNl : List Char → List (List Char)
  | [] => [[]]
  | c :: cs =>
    if c = '\n' then [] :: splitNl cs
    else
      match splitNl cs with
      | [] => [[c]]
      | l :: ls => (c :: l) :: ls

/-- Claim-side: the numeric value of a decimal digit character. -/
def digitVal (c : Char) : Nat := c.toNat - 48

/-- Claim-side: `s` has the shape `HH:MM` with `HH` a zero-padded number in
`[00, 23]` and `MM` a zero-padded number in `[00, 59]`. -/
def isHHMM (s : String) : Bool :=
  match s.data with
  | [h1, h2, c, m1, m2] =>
    h1.isDigit && h2.isDigit && (c == ':') && m1.isDigit && m2.isDigit &&
      decide (10 * digitVal h1 + digitVal h2 < 24) &&
      decide (10 * digitVal m1 + digitVal m2 < 60)
  | _ => false

/-- Claim-side: the string `user` followed by the three decimal digits of
`n` zero-padded to width 3 (`n < 1000`). -/
def userIdPat (n : Nat) : String :=
  "user" ++ String.mk
    [Nat.digitChar (n / 100), Nat.digitChar (n / 10 % 10), Nat.digitChar (n % 10)]

/-- A fixed wall-clock stream used to instantiate theorems at a concrete
input: every iteration observes minute `1000000` of the calendar. -/
def wNow : Nat → Nat := fun _ => 1000000

/-- A fixed offset stream used to instantiate theorems: every draw is 7. -/
def wOff : Nat → Fin 1441 := fun _ => ⟨7, by decide⟩

/-- A fixed status-index stream used to instantiate theorems: every draw
picks index 1 (`"inactive"`). -/
def wCh : Nat → Fin 3 := fun _ => ⟨1, by decide⟩

theorem format2_data : ∀ n < 60, (format2 n).data =
    [Nat.digitChar (n / 10), Nat.digitChar (n % 10)] := by decide

theorem format03d_data : ∀ i < 501, (format03d i).data =
    [Nat.digitChar (i / 100), Nat.digitChar (i / 10 % 10), Nat.digitChar (i % 10)] := by
  decide

theorem digitChar_inj_lt : ∀ a < 10, ∀ b < 10,
    Nat.digitChar a = Nat.digitChar b → a = b := by decide

theorem digitChar_isDigit : ∀ d < 10, (Nat.digitChar d).isDigit = true := by decide

theorem digitChar_ne_nl : ∀ d < 10, Nat.digitChar d ≠ '\n' := by decide

theorem digitVal_digitChar : ∀ d < 10, digitVal (Nat.digitChar d) = d := by decide

theorem user_ids_length : user_ids.length = 500 := by
  simp [user_ids]

theorem hhmm_format2 : ∀ h < 24, ∀ m < 60,
    isHHMM (format2 h ++ ":" ++ format2 m) = true := by decide

theorem user_ids_getD : ∀ j, j < 500 → user_ids.getD j "" = "user" ++ format03d (1 + j) := by
  intro j hj
  have hlen : j < user_ids.length := by rw [user_ids_length]; exact hj
  rw [List.getD_eq_getElem _ _ hlen]
  simp [user_ids, List.getElem_range']

theorem records_length (now : Nat → Nat) (offs : Nat → Fin 1441) (chs : Nat → Fin 3) :
    (records now offs chs).length = 500 := by
  simp [records, user_ids_length]

theorem sessions_length (now : Nat → Nat) (offs : Nat → Fin 1441) (chs : Nat → Fin 3) :
    (sessions now offs chs).length = 500 := by
  simp [sessions, user_ids_length]

theorem records_getD (now : Nat → Nat) (offs : Nat → Fin 1441) (chs : Nat → Fin 3)
    (j : Nat) (hj : j < 500) :
    (records now offs chs).getD j emptySession =
      mkSessionData (user_ids.getD j "") (now j) (offs j) (chs j) := by
  have hlen : j < (records now offs chs).length := by rw [records_length]; exact hj
  rw [List.getD_eq_getElem _ _ hlen]
  simp [records, List.getElem_range]

theorem sessions_getD (now : Nat → Nat) (offs : Nat → Fin 1441) (chs : Nat → Fin 3)
    (j : Nat) (hj : j < 500) :
    (sessions now offs chs).getD j "" =
      sessionLine (user_ids.getD j "")
        (mkSessionData (user_ids.getD j "") (now j) (offs j) (chs j)) := by
  have hlen : j < (sessions now offs chs).length := by rw [sessions_length]; exact hj
  rw [List.getD_eq_getElem _ _ hlen]
  simp [sessions, List.getElem_range]

theorem nl_not_mem_format2 : ∀ n < 60, '\n' ∉ (format2 n).data := by decide

theorem nl_not_mem_strftimeHM (t : Nat) : '\n' ∉ (strftimeHM t).data := by
  intro hmem
  simp only [strftimeHM, String.data_append, List.mem_append] at hmem
  rcases hmem with (h | h) | h
  · exact nl_not_mem_format2 _ (by omega) h
  · revert h; decide
  · exact nl_not_mem_format2 _ (by omega) h

theorem nl_not_mem_format03d : ∀ i < 501, '\n' ∉ (format03d i).data := by
  intro i hi hmem
  rw [format03d_data i hi] at hmem
  simp only [List.mem_cons, List.not_mem_nil, or_false] at hmem
  rcases hmem with h | h | h
  · exact digitChar_ne_nl _ (by omega) h.symm
  · exact digitChar_ne_nl _ (by omega) h.symm
  · exact digitChar_ne_nl _ (by omega) h.symm

theorem nl_not_mem_uid : ∀ j, j < 500 → '\n' ∉ (user_ids.getD j "").data := by
  intro j hj hmem
  rw [user_ids_getD j hj, String.data_append] at hmem
  rcases List.mem_append.mp hmem with h | h
  · revert h; decide
  · exact nl_not_mem_format03d (1 + j) (by omega) h

theorem nl_not_mem_status : ∀ c : Fin 3, '\n' ∉ (statuses.getD c.val "").data := by
  decide

theorem not_mem_append_parts {a : Char} {l₁ l₂ : List Char}
    (h₁ : a ∉ l₁) (h₂ : a ∉ l₂) : a ∉ l₁ ++ l₂ := by
  intro h
  rcases List.mem_append.mp h with h | h
  · exact h₁ h
  · exact h₂ h

theorem nl_not_mem_line (uid : String) (now : Nat) (k : Fin 1441) (c : Fin 3)
    (huid : '\n' ∉ uid.data) :
    '\n' ∉ (sessionLine uid (mkSessionData uid now k c)).data := by
  have h1 : '\n' ∉ ("session:" : String).data := by decide
  have h2 : '\n' ∉ (" → " : String).data := by decide
  have h3 : '\n' ∉ ("\x7b\"userId\": \"" : String).data := by decide
  have h4 : '\n' ∉ ("\", \"loginTime\": \"" : String).data := by decide
  have h5 : '\n' ∉ ("\", \"status\": \"" : String).data := by decide
  have h6 : '\n' ∉ ("\"\x7d" : String).data := by decide
  have hlt : '\n' ∉ (strftimeHM (loginStamp now k)).data := nl_not_mem_strftimeHM _
  have hst : '\n' ∉ (statuses.getD c.val "").data := nl_not_mem_status c
  simp only [sessionLine, jsonDumps, mkSessionData, String.data_append]
  exact not_mem_append_parts
    (not_mem_append_parts (not_mem_append_parts h1 huid) h2)
    (not_mem_append_parts
      (not_mem_append_parts
        (not_mem_append_parts
          (not_mem_append_parts
            (not_mem_append_parts (not_mem_append_parts h3 huid) h4) hlt) h5)
        hst)
      h6)

theorem nl_not_mem_sessions (now : Nat → Nat) (offs : Nat → Fin 1441) (chs : Nat → Fin 3) :
    ∀ s ∈ sessions now offs chs, '\n' ∉ s.data := by
  intro s hs
  rcases List.mem_map.mp hs with ⟨j, hj, rfl⟩
  have hj' : j < 500 := by
    have := List.mem_range.mp hj
    rwa [user_ids_length] at this
  exact nl_not_mem_line _ _ _ _ (nl_not_mem_uid j hj')

theorem splitNl_of_not_mem : ∀ xs : List Char, '\n' ∉ xs → splitNl xs = [xs] := by
  intro xs
  induction xs with
  | nil => intro _; rfl
  | cons c cs ih =>
    intro h
    have hc : ¬ c = '\n' := fun hh => h (hh ▸ List.mem_cons_self c cs)
    have hcs : '\n' ∉ cs := fun hh => h (List.mem_cons_of_mem _ hh)
    simp only [splitNl, if_neg hc, ih hcs]

theorem splitNl_append : ∀ xs rest : List Char, '\n' ∉ xs →
    splitNl (xs ++ '\n' :: rest) = xs :: splitNl rest := by
  intro xs
  induction xs with
  | nil => intro rest _; simp [splitNl]
  | cons c cs ih =>
    intro rest h
    have hc : ¬ c = '\n' := fun hh => h (hh ▸ List.mem_cons_self c cs)
    have hcs : '\n' ∉ cs := fun hh => h (List.mem_cons_of_mem _ hh)
    simp only [List.cons_append, splitNl, if_neg hc, List.append_eq, ih rest hcs]

theorem joinNl_data_cons (s t : String) (r : List String) :
    (joinNl (s :: t :: r)).data = s.data ++ '\n' :: (joinNl (t :: r)).data := by
  show (s ++ "\n" ++ joinNl (t :: r)).data = _
  rw [String.data_append, String.data_append]
  have hnl : ("\n" : String).data = ['\n'] := rfl
  rw [hnl, List.append_assoc]
  rfl

theorem splitNl_joinNl : ∀ l : List String, l ≠ [] → (∀ s ∈ l, '\n' ∉ s.data) →
    splitNl (joinNl l).data = l.map String.data := by
  intro l
  induction l with
  | nil => intro h; exact absurd rfl h
  | cons s rest ih =>
    intro _ hmem
    cases rest with
    | nil =>
      show splitNl s.data = [s.data]
      exact splitNl_of_not_mem s.data (hmem s (List.mem_cons_self _ _))
    | cons t r =>
      rw [joinNl_data_cons, splitNl_append _ _ (hmem s (List.mem_cons_self _ _))]
      rw [ih (by simp) (fun x hx => hmem x (List.mem_cons_of_mem _ hx))]
      rfl

theorem count_nl_joinNl : ∀ l : List String, l ≠ [] → (∀ s ∈ l, '\n' ∉ s.data) →
    (joinNl l).data.count '\n' = l.length - 1 := by
  intro l
  induction l with
  | nil => intro h; exact absurd rfl h
  | cons s rest ih =>
    intro _ hmem
    cases rest with
    | nil =>
      show s.data.count '\n' = 0
      exact List.count_eq_zero.mpr (hmem s (List.mem_cons_self _ _))
    | cons t r =>
      rw [joinNl_data_cons, List.count_append, List.count_cons_self]
      rw [List.count_eq_zero.mpr (hmem s (List.mem_cons_self _ _))]
      rw [ih (by simp) (fun x hx => hmem x (List.mem_cons_of_mem _ hx))]
      simp [List.length_cons]

theorem line_getLast (uid : String) (sd : SessionData) :
    (sessionLine uid sd).data.getLast? = some '}' := by
  simp only [sessionLine, jsonDumps, String.data_append]
  rw [List.getLast?_append, List.getLast?_append]
  have hE : (("\"\x7d" : String)).data.getLast? = some '}' := rfl
  rw [hE]
  rfl

theorem getLast?_cons_of_getLast? {a c : Char} {l : List Char}
    (h : l.getLast? = some c) : (a :: l).getLast? = some c := by
  cases l with
  | nil => simp at h
  | cons b m => rw [List.getLast?_cons_cons]; exact h

theorem joinNl_getLast : ∀ l : List String, (∀ s ∈ l, s.data.getLast? = some '}') →
    l ≠ [] → (joinNl l).data.getLast? = some '}' := by
  intro l
  induction l with
  | nil => intro _ h; exact absurd rfl h
  | cons s rest ih =>
    intro hmem _
    cases rest with
    | nil => exact hmem s (List.mem_cons_self _ _)
    | cons t r =>
      rw [joinNl_data_cons, List.getLast?_append]
      have hr : (joinNl (t :: r)).data.getLast? = some '}' :=
        ih (fun x hx => hmem x (List.mem_cons_of_mem _ hx)) (by simp)
      rw [getLast?_cons_of_getLast? hr]
      rfl

theorem records_map_userId (now : Nat → Nat) (offs : Nat → Fin 1441) (chs : Nat → Fin 3) :
    (records now offs chs).map SessionData.userId = user_ids := by
  apply List.ext_getElem
  · simp [records, user_ids_length]
  · intro i h1 h2
    simp only [records, List.getElem_map, List.getElem_range, mkSessionData]
    exact List.getD_eq_getElem user_ids "" h2

theorem user_ids_nodup : user_ids.Nodup := by
  rw [user_ids]
  refine List.Nodup.map_on ?_ (List.nodup_range' 1 500)
  intro x hx y hy hxy
  have hx' := List.mem_range'_1.mp hx
  have hy' := List.mem_range'_1.mp hy
  have hd : ("user" ++ format03d x).data = ("user" ++ format03d y).data := by rw [hxy]
  rw [String.data_append, String.data_append] at hd
  have husr : ("user" : String).data = ['u', 's', 'e', 'r'] := rfl
  rw [husr] at hd
  have hform : (format03d x).data = (format03d y).data := by simpa using hd
  rw [format03d_data x (by omega), format03d_data y (by omega)] at hform
  simp only [List.cons.injEq, and_true] at hform
  obtain ⟨e1, e2, e3⟩ := hform
  have d1 := digitChar_inj_lt _ (by omega) _ (by omega) e1
  have d2 := digitChar_inj_lt _ (by omega) _ (by omega) e2
  have d3 := digitChar_inj_lt _ (by omega) _ (by omega) e3
  omega

theorem user_ids_eq_pat : user_ids = (List.range' 1 500).map userIdPat := by
  rw [user_ids]
  refine List.map_congr_left ?_
  intro a ha
  have ha' := List.mem_range'_1.mp ha
  rw [userIdPat]
  congr 1
  apply String.ext
  rw [format03d_data a (by omega)]

theorem uid_getD_eq_pat : ∀ i, 1 ≤ i → i ≤ 500 → user_ids.getD (i - 1) "" = userIdPat i := by
  intro i h1 h2
  rw [user_ids_getD (i - 1) (by omega)]
  have hi : 1 + (i - 1) = i := by omega
  rw [hi, userIdPat]
  congr 1
  apply String.ext
  rw [format03d_data i (by omega)]

/-- C1: the generated output contains exactly 500 records: the content written
to `user_sessions.txt`, split on the newline character, yields exactly 500
lines, whatever the random draws and wall-clock readings were. -/
theorem output_has_500_lines (now : Nat → Nat) (offs : Nat → Fin 1441) (chs : Nat → Fin 3) :
    (splitNl (fileContent now offs chs).data).length = 500 := by
  have hne : sessions now offs chs ≠ [] :=
    List.ne_nil_of_length_pos (by rw [sessions_length]; norm_num)
  rw [fileContent, splitNl_joinNl _ hne (nl_not_mem_sessions now offs chs)]
  rw [List.length_map, sessions_length]

/-- C2: the userId values of the 500 generated records are pairwise distinct,
and in sequence they are exactly `user` followed by the 3-digit zero-padded
numbers 1 through 500 (`user001` … `user500`). -/
theorem userIds_unique_and_patterned
    (now : Nat → Nat) (offs : Nat → Fin 1441) (chs : Nat → Fin 3) :
    ((records now offs chs).map SessionData.userId).Nodup ∧
    (records now offs chs).map SessionData.userId = (List.range' 1 500).map userIdPat := by
  rw [records_map_userId]
  exact ⟨user_ids_nodup, user_ids_eq_pat⟩

/-- C3: for every generated record and every outcome of the random choices,
the status field is one of `"active"`, `"inactive"`, `"expired"`. -/
theorem status_in_vocabulary (now : Nat → Nat) (offs : Nat → Fin 1441) (chs : Nat → Fin 3)
    (j : Nat) (hj : j < 500) :
    ((records now offs chs).getD j emptySession).status = "active" ∨
    ((records now offs chs).getD j emptySession).status = "inactive" ∨
    ((records now offs chs).getD j emptySession).status = "expired" := by
  rw [records_getD now offs chs j hj]
  rcases chs j with ⟨v, hv⟩
  interval_cases v
  · exact Or.inl rfl
  · exact Or.inr (Or.inl rfl)
  · exact Or.inr (Or.inr rfl)

/-- Witness for C3: iteration 0 of the fixed streams satisfies the claim. -/
theorem status_in_vocabulary_witness :
    (0 : Nat) < 500 ∧
    (((records wNow wOff wCh).getD 0 emptySession).status = "active" ∨
     ((records wNow wOff wCh).getD 0 emptySession).status = "inactive" ∨
     ((records wNow wOff wCh).getD 0 emptySession).status = "expired") :=
  ⟨by decide, status_in_vocabulary wNow wOff wCh 0 (by decide)⟩

/-- C4: for every generated record, every outcome of the random choices and
every wall-clock time, the loginTime string has the form `HH:MM` with `HH`
zero-padded in `[00, 23]` and `MM` zero-padded in `[00, 59]`. -/
theorem loginTime_matches_HHMM (now : Nat → Nat) (offs : Nat → Fin 1441) (chs : Nat → Fin 3)
    (j : Nat) (hj : j < 500) :
    isHHMM (((records now offs chs).getD j emptySession).loginTime) = true := by
  rw [records_getD now offs chs j hj]
  show isHHMM (strftimeHM (loginStamp (now j) (offs j))) = true
  rw [strftimeHM]
  exact hhmm_format2 _ (by omega) _ (by omega)

/-- Witness for C4: iteration 0 of the fixed streams satisfies the claim. -/
theorem loginTime_matches_HHMM_witness :
    (0 : Nat) < 500 ∧
    isHHMM (((records wNow wOff wCh).getD 0 emptySession).loginTime) = true :=
  ⟨by decide, loginTime_matches_HHMM wNow wOff wCh 0 (by decide)⟩

/-- C5: every output line is `session:<userId> → <json object>` where the
JSON object serializes exactly the record's three fields `userId`,
`loginTime`, `status` in that order (`jsonDumps`), and the id in the
`session:` prefix is the record's own userId field. -/
theorem line_serialization_format (now : Nat → Nat) (offs : Nat → Fin 1441) (chs : Nat → Fin 3)
    (j : Nat) (hj : j < 500) :
    (sessions now offs chs).getD j "" =
      "session:" ++ ((records now offs chs).getD j emptySession).userId ++ " → " ++
        jsonDumps ((records now offs chs).getD j emptySession) := by
  rw [sessions_getD now offs chs j hj, records_getD now offs chs j hj]
  rfl

/-- Witness for C5: line 0 of the fixed streams satisfies the claim. -/
theorem line_serialization_format_witness :
    (0 : Nat) < 500 ∧
    (sessions wNow wOff wCh).getD 0 "" =
      "session:" ++ ((records wNow wOff wCh).getD 0 emptySession).userId ++ " → " ++
        jsonDumps ((records wNow wOff wCh).getD 0 emptySession) :=
  ⟨by decide, line_serialization_format wNow wOff wCh 0 (by decide)⟩

/-- C6: for every generated record (on any wall clock at least a day past the
calendar epoch, as every real one is) the login timestamp from which loginTime
is derived is `now` minus an offset of `k` minutes with `0 ≤ k ≤ 1440`. -/
theorem login_within_last_day (now : Nat → Nat) (offs : Nat → Fin 1441) (chs : Nat → Fin 3)
    (j : Nat) (hj : j < 500) (hnow : 1440 ≤ now j) :
    ∃ k : Nat, k ≤ 1440 ∧ loginStamp (now j) (offs j) + k = now j ∧
      ((records now offs chs).getD j emptySession).loginTime =
        strftimeHM (loginStamp (now j) (offs j)) := by
  refine ⟨(offs j).val, ?_, ?_, ?_⟩
  · have := (offs j).isLt
    omega
  · have := (offs j).isLt
    rw [loginStamp]
    omega
  · rw [records_getD now offs chs j hj]
    rfl

/-- Witness for C6: iteration 0 of the fixed streams satisfies the claim. -/
theorem login_within_last_day_witness :
    (0 : Nat) < 500 ∧ 1440 ≤ wNow 0 ∧
    (∃ k : Nat, k ≤ 1440 ∧ loginStamp (wNow 0) (wOff 0) + k = wNow 0 ∧
      ((records wNow wOff wCh).getD 0 emptySession).loginTime =
        strftimeHM (loginStamp (wNow 0) (wOff 0))) :=
  ⟨by decide, by decide, login_within_last_day wNow wOff wCh 0 (by decide) (by decide)⟩

/-- C7: any two runs, whatever their random draws and wall clocks, have the
same structural shape: the same number of lines (500), the same sequence of
userIds, and every line of either run is the `session:<userId> → <json>`
rendering of its record. -/
theorem runs_have_same_shape
    (n1 : Nat → Nat) (o1 : Nat → Fin 1441) (c1 : Nat → Fin 3)
    (n2 : Nat → Nat) (o2 : Nat → Fin 1441) (c2 : Nat → Fin 3) :
    (sessions n1 o1 c1).length = (sessions n2 o2 c2).length ∧
    (sessions n1 o1 c1).length = 500 ∧
    (records n1 o1 c1).map SessionData.userId = (records n2 o2 c2).map SessionData.userId ∧
    (∀ j, j < 500 → ∃ sd1 sd2 : SessionData,
      (sessions n1 o1 c1).getD j "" = sessionLine sd1.userId sd1 ∧
      (sessions n2 o2 c2).getD j "" = sessionLine sd2.userId sd2 ∧
      sd1.userId = sd2.userId) := by
  refine ⟨?_, sessions_length n1 o1 c1, ?_, ?_⟩
  · rw [sessions_length, sessions_length]
  · rw [records_map_userId, records_map_userId]
  · intro j hj
    refine ⟨mkSessionData (user_ids.getD j "") (n1 j) (o1 j) (c1 j),
            mkSessionData (user_ids.getD j "") (n2 j) (o2 j) (c2 j), ?_, ?_, rfl⟩
    · rw [sessions_getD n1 o1 c1 j hj]
      rfl
    · rw [sessions_getD n2 o2 c2 j hj]
      rfl

/-- C8: the file content is the 500 lines joined by single newlines with no
trailing newline: it contains exactly 499 newline characters and its last
character is not a newline. -/
theorem content_has_no_trailing_newline
    (now : Nat → Nat) (offs : Nat → Fin 1441) (chs : Nat → Fin 3) :
    (fileContent now offs chs).data.count '\n' = 499 ∧
    (fileContent now offs chs).data.getLast? ≠ some '\n' := by
  have hne : sessions now offs chs ≠ [] :=
    List.ne_nil_of_length_pos (by rw [sessions_length]; norm_num)
  constructor
  · rw [fileContent, count_nl_joinNl _ hne (nl_not_mem_sessions now offs chs), sessions_length]
  · have hlast : (fileContent now offs chs).data.getLast? = some '}' := by
      rw [fileContent]
      refine joinNl_getLast _ ?_ hne
      intro s hs
      rcases List.mem_map.mp hs with ⟨j, hj, rfl⟩
      exact line_getLast _ _
    rw [hlast]
    simp

/-- C9: in every generated line, the id in the `session:<id>` key prefix and
the value of the `userId` field inside the JSON object are the same string:
one record's userId feeds both. -/
theorem key_id_matches_json_field
    (now : Nat → Nat) (offs : Nat → Fin 1441) (chs : Nat → Fin 3)
    (j : Nat) (hj : j < 500) :
    ∃ sd : SessionData, (sessions now offs chs).getD j "" =
      "session:" ++ sd.userId ++ " → " ++ jsonDumps sd := by
  refine ⟨mkSessionData (user_ids.getD j "") (now j) (offs j) (chs j), ?_⟩
  rw [sessions_getD now offs chs j hj]
  rfl

/-- Witness for C9: line 0 of the fixed streams satisfies the claim. -/
theorem key_id_matches_json_field_witness :
    (0 : Nat) < 500 ∧
    (∃ sd : SessionData, (sessions wNow wOff wCh).getD 0 "" =
      "session:" ++ sd.userId ++ " → " ++ jsonDumps sd) :=
  ⟨by decide, key_id_matches_json_field wNow wOff wCh 0 (by decide)⟩

/-- C10: the output lines appear in ascending id order: for `1 ≤ i ≤ 500` the
`i`-th line (index `i - 1`) is the rendering of the record whose userId is
`user` followed by `i` zero-padded to 3 digits. -/
theorem lines_in_ascending_id_order
    (now : Nat → Nat) (offs : Nat → Fin 1441) (chs : Nat → Fin 3)
    (i : Nat) (h1 : 1 ≤ i) (h2 : i ≤ 500) :
    ∃ sd : SessionData, sd.userId = userIdPat i ∧
      (sessions now offs chs).getD (i - 1) "" = sessionLine sd.userId sd := by
  refine ⟨mkSessionData (user_ids.getD (i - 1) "") (now (i - 1)) (offs (i - 1)) (chs (i - 1)),
    ?_, ?_⟩
  · show user_ids.getD (i - 1) "" = userIdPat i
    exact uid_getD_eq_pat i h1 h2
  · rw [sessions_getD now offs chs (i - 1) (by omega)]
    rfl

/-- Witness for C10: the first line (i = 1) of the fixed streams satisfies
the claim. -/
theorem lines_in_ascending_id_order_witness :
    (1 : Nat) ≤ 1 ∧ (1 : Nat) ≤ 500 ∧
    (∃ sd : SessionData, sd.userId = userIdPat 1 ∧
      (sessions wNow wOff wCh).getD (1 - 1) "" = sessionLine sd.userId sd) :=
  ⟨by decide, by decide, lines_in_ascending_id_order wNow wOff wCh 1 (by decide) (by decide)⟩

end Dataset
